import Mathlib

/-!
Shallow embedding of the Mega 2560 line-follower firmware
(`src/arduino/firmware/firmware.ino`): serial vision-packet ingestion,
mode arbitration, gain scheduling, IR line sensing, PID control and the
wheel-command mixer. C floats are modelled as rationals; `millis()`
timestamps as natural numbers with 32-bit unsigned subtraction.
-/

namespace Firmware

/-- `BASE_MIN` from the source: lower clamp bound for the scheduled base speed. -/
def BASE_MIN : ℚ := 20/100

/-- `BASE_MAX` from the source: upper clamp bound for the scheduled base speed. -/
def BASE_MAX : ℚ := 70/100

/-- `clampf` from the source: clamp `x` into `[lo, hi]`. -/
def clampf (x lo hi : ℚ) : ℚ :=
  if x < lo then lo
  else if x > hi then hi
  else x

/-- The vision feature state written by `readVisionSerial`:
globals `lastLk`, `lastValid`, `lastVisionMs`. -/
structure VisionState where
  lastLk : ℚ
  lastValid : Bool
  lastVisionMs : ℕ
deriving DecidableEq, Repr

/-- 32-bit unsigned subtraction `a - b` on `unsigned long` values
(4294967296 = 2^32), as in `millis() - lastVisionMs`. -/
def usub32 (a b : ℕ) : ℕ :=
  (a % 4294967296 + 4294967296 - b % 4294967296) % 4294967296

/-- C `isspace`, used by `sscanf` conversions to skip leading whitespace. -/
def cIsSpace (c : Char) : Bool :=
  c = ' ' ∨ c = '\t' ∨ c = '\n' ∨ c = '\r' ∨ c = '\x0b' ∨ c = '\x0c'

/-- Value of a decimal digit character. -/
def digVal (c : Char) : ℕ := c.toNat - '0'.toNat

/-- Take the maximal run of leading decimal digits, returning their values
and the remaining characters. -/
def takeDigits : List Char → List ℕ × List Char
  | [] => ([], [])
  | c :: rest =>
    if c.isDigit then
      let p := takeDigits rest
      (digVal c :: p.1, p.2)
    else ([], c :: rest)

/-- The natural number denoted by a list of digit values (most significant first). -/
def natOfDigits (ds : List ℕ) : ℕ := ds.foldl (fun a d => a * 10 + d) 0

/-- Optional leading sign, returned as a multiplier. -/
def scanSign : List Char → ℤ × List Char
  | '+' :: rest => (1, rest)
  | '-' :: rest => (-1, rest)
  | l => (1, l)

/-- `10 ^ n` in `ℚ`, by structural recursion. -/
def pow10 : ℕ → ℚ
  | 0 => 1
  | n + 1 => 10 * pow10 n

/-- `10 ^ e` in `ℚ` for an integer exponent. -/
def zpow10 : ℤ → ℚ
  | Int.ofNat n => pow10 n
  | Int.negSucc n => 1 / pow10 (n + 1)

/-- Optional exponent part `e[sign]digits` of a C float literal; consumed only
when at least one digit follows, as in `strtod`. -/
def scanExp (l : List Char) : ℤ × List Char :=
  match l with
  | c :: rest =>
    if c = 'e' ∨ c = 'E' then
      let s := scanSign rest
      let d := takeDigits s.2
      if d.1.isEmpty then (0, l) else (s.1 * (natOfDigits d.1 : ℤ), d.2)
    else (0, l)
  | [] => (0, l)

/-- `sscanf` `%f` conversion (decimal notation): skip whitespace, optional
sign, digits with optional fraction part, optional exponent; fails unless the
mantissa has at least one digit. Returns the value and the unconsumed rest. -/
def scanFloat (l : List Char) : Option (ℚ × List Char) :=
  let l1 := l.dropWhile cIsSpace
  let s := scanSign l1
  let ip := takeDigits s.2
  let fp : List ℕ × List Char :=
    match ip.2 with
    | '.' :: r => takeDigits r
    | _ => ([], ip.2)
  if ip.1.isEmpty ∧ fp.1.isEmpty then none
  else
    let mant : ℚ := (natOfDigits ip.1 : ℚ) + (natOfDigits fp.1 : ℚ) / pow10 fp.1.length
    let ex := scanExp fp.2
    some ((s.1 : ℚ) * mant * zpow10 ex.1, ex.2)

/-- `sscanf` `%d` conversion: skip whitespace, optional sign, at least one
digit. Returns the value and the unconsumed rest. -/
def scanInt (l : List Char) : Option (ℤ × List Char) :=
  let l1 := l.dropWhile cIsSpace
  let s := scanSign l1
  let d := takeDigits s.2
  if d.1.isEmpty then none else some (s.1 * (natOfDigits d.1 : ℤ), d.2)

/-- The parse step of `readVisionSerial` on a completed line: the prefix check
`buf[0]=='L' && buf[1]==','` combined with `sscanf(buf, "L,%f,%d", &lk, &v) == 2`.
Succeeds exactly when the line starts with `L,` then a float, `,`, an int; any
characters after the int are ignored. -/
def parseLine (l : List Char) : Option (ℚ × ℤ) :=
  match l with
  | 'L' :: ',' :: rest =>
    match scanFloat rest with
    | some (lk, r1) =>
      match r1 with
      | ',' :: r2 =>
        match scanInt r2 with
        | some (v, _) => some (lk, v)
        | none => none
      | _ => none
    | none => none
  | _ => none

/-- One character of `readVisionSerial`'s loop body. The accumulation buffer is
the list of characters stored so far (the source's `buf[0..idx-1]`, capacity
`sizeof(buf) - 1 = 39` since one slot is reserved for the terminator). On
newline the buffer is parsed and always reset; a successful parse writes the
vision state (`lastLk` clamped to `[0,1]`, `lastValid = (v != 0)`,
`lastVisionMs = millis()`); on overflow the buffer is silently reset and the
character dropped. -/
def processChar (rx : List Char) (vs : VisionState) (c : Char) (now : ℕ) :
    List Char × VisionState :=
  if c = '\n' then
    match parseLine rx with
    | some (lk, v) =>
      ([], { lastLk := clampf lk 0 1, lastValid := v != 0, lastVisionMs := now })
    | none => ([], vs)
  else
    if rx.length < 39 then (rx ++ [c], vs) else ([], vs)

/-- `readVisionSerial`: consume all available bytes, one `processChar` step each. -/
def readVisionSerial (rx : List Char) (vs : VisionState) (bytes : List Char)
    (now : ℕ) : List Char × VisionState :=
  bytes.foldl (fun p c => processChar p.1 p.2 c now) (rx, vs)

/-- The gain/speed profile: globals `Kp`, `Ki`, `Kd`, `baseSpeed`. -/
structure Gains where
  Kp : ℚ
  Ki : ℚ
  Kd : ℚ
  baseSpeed : ℚ
deriving DecidableEq, Repr

/-- `visionFresh && lastValid` from `updateScheduler`: the per-tick trust
decision on the vision sample. -/
def useVisionOf (nowMs : ℕ) (vs : VisionState) : Bool :=
  (usub32 nowMs vs.lastVisionMs < 200) && vs.lastValid

/-- `float lk = useVision ? lastLk : 0.0f` from `updateScheduler`. -/
def effectiveLk (nowMs : ℕ) (vs : VisionState) : ℚ :=
  if useVisionOf nowMs vs then vs.lastLk else 0

/-- The trusted-vision branch of `updateScheduler`'s if-chain: three
lookahead bands split at 0.35 and 0.70, both with strict `<`. -/
def bandGains (lk : ℚ) : Gains :=
  if lk < 35/100 then
    { Kp := 85/100, Ki := 0, Kd := 10/100, baseSpeed := 25/100 }
  else if lk < 70/100 then
    { Kp := 60/100, Ki := 0, Kd := 12/100, baseSpeed := 40/100 }
  else
    { Kp := 45/100, Ki := 0, Kd := 16/100, baseSpeed := 60/100 }

/-- `updateScheduler` from the source (purified: the globals it assigns are
returned as a `Gains` record). Safe-mode profile when vision is not trusted;
otherwise the three-band table on the effective lookahead, with the band's
base speed clamped into `[BASE_MIN, BASE_MAX]`. -/
def updateScheduler (nowMs : ℕ) (vs : VisionState) : Gains :=
  if useVisionOf nowMs vs = false then
    { Kp := 70/100, Ki := 0, Kd := 10/100, baseSpeed := 30/100 }
  else
    { bandGains (effectiveLk nowMs vs) with
      baseSpeed :=
        clampf (bandGains (effectiveLk nowMs vs)).baseSpeed BASE_MIN BASE_MAX }

/-- `computeIrError` from the source, its fixed 8-iteration sensor loop
unrolled: normalize the 8 analog channels to `[0,1]`, accumulate the channel
sum and the index-weighted sum, report `none` (line lost) when the channel sum
is below the 0.01 detection threshold, else the lateral error in meters
`(wsum / sum - 3.5) * 0.010`. -/
def computeIrError (raw : ℕ → ℕ) : Option ℚ :=
  let v : ℕ → ℚ := fun i => (raw i : ℚ) / 1023
  let sum : ℚ := v 0 + v 1 + v 2 + v 3 + v 4 + v 5 + v 6 + v 7
  let wsum : ℚ :=
    v 0 * 0 + v 1 * 1 + v 2 * 2 + v 3 * 3 + v 4 * 4 + v 5 * 5 + v 6 * 6 + v 7 * 7
  if sum < 1/100 then none
  else some ((wsum / sum - 7/2) * (1/100))

/-- `left = baseSpeed - u; right = baseSpeed + u` followed by the two
independent clamps to `[-1, 1]`, from `loop`. -/
def mix (base u : ℚ) : ℚ × ℚ :=
  (clampf (base - u) (-1) 1, clampf (base + u) (-1) 1)

/-- The persistent control-loop state: the receiver's line buffer, the vision
sample, the gain globals and the PID state `integ`/`prevE`. -/
structure CtrlState where
  rxBuf : List Char
  vision : VisionState
  gains : Gains
  integ : ℚ
  prevE : ℚ
deriving DecidableEq, Repr

/-- The initial values of the firmware's globals. -/
def initState : CtrlState :=
  { rxBuf := []
    vision := { lastLk := 0, lastValid := false, lastVisionMs := 0 }
    gains := { Kp := 55/100, Ki := 0, Kd := 12/100, baseSpeed := 35/100 }
    integ := 0
    prevE := 0 }

/-- What one control tick produces besides the new state: the steering
correction `u` and the mixed wheel commands. -/
structure TickResult where
  state : CtrlState
  u : ℚ
  left : ℚ
  right : ℚ
deriving DecidableEq, Repr

/-- One pass of `loop` past the rate gate (`dt` is the gate-computed step):
ingest serial bytes, run the scheduler, sense the line, update or reset the
PID state, and mix wheel commands. -/
def tick (s : CtrlState) (bytes : List Char) (nowMs : ℕ) (raw : ℕ → ℕ)
    (dt : ℚ) : TickResult :=
  let rv := readVisionSerial s.rxBuf s.vision bytes nowMs
  let g := updateScheduler nowMs rv.2
  match computeIrError raw with
  | none =>
    let g2 : Gains := { g with baseSpeed := g.baseSpeed * (1/2) }
    let u : ℚ := 0
    { state := { rxBuf := rv.1, vision := rv.2, gains := g2, integ := 0, prevE := 0 }
      u := u
      left := (mix g2.baseSpeed u).1
      right := (mix g2.baseSpeed u).2 }
  | some e =>
    let integ2 := s.integ + e * dt
    let de := (e - s.prevE) / dt
    let u := g.Kp * e + g.Ki * integ2 + g.Kd * de
    { state := { rxBuf := rv.1, vision := rv.2, gains := g, integ := integ2, prevE := e }
      u := u
      left := (mix g.baseSpeed u).1
      right := (mix g.baseSpeed u).2 }

/-- The control states reachable from the firmware's initial globals by any
sequence of control ticks. -/
inductive Reachable : CtrlState → Prop where
  | init : Reachable initState
  | step (s : CtrlState) (bytes : List Char) (nowMs : ℕ) (raw : ℕ → ℕ) (dt : ℚ) :
      Reachable s → Reachable (tick s bytes nowMs raw dt).state

end Firmware

namespace Firmware

/-! ## General lemmas about the embedded operations -/

theorem clampf_mem (x lo hi : ℚ) (h : lo ≤ hi) :
    lo ≤ clampf x lo hi ∧ clampf x lo hi ≤ hi := by
  unfold clampf
  split_ifs with h1 h2
  · exact ⟨le_rfl, h⟩
  · exact ⟨h, le_rfl⟩
  · exact ⟨by linarith, by linarith⟩

theorem clampf_eq_self (x lo hi : ℚ) (h1 : lo ≤ x) (h2 : x ≤ hi) :
    clampf x lo hi = x := by
  unfold clampf
  split_ifs with ha hb
  · linarith
  · linarith
  · rfl

theorem readVisionSerial_nil (rx : List Char) (vs : VisionState) (now : ℕ) :
    readVisionSerial rx vs [] now = (rx, vs) := rfl

theorem readVisionSerial_append (rx : List Char) (vs : VisionState)
    (b1 b2 : List Char) (now : ℕ) :
    readVisionSerial rx vs (b1 ++ b2) now =
      readVisionSerial (readVisionSerial rx vs b1 now).1
        (readVisionSerial rx vs b1 now).2 b2 now := by
  unfold readVisionSerial
  rw [List.foldl_append]

/-- Feeding non-newline bytes that fit into the remaining buffer capacity
just appends them to the buffer and leaves the vision state untouched. -/
theorem feed_fill (l : List Char) : ∀ (rx : List Char) (vs : VisionState)
    (now : ℕ), (∀ c ∈ l, c ≠ '\n') → rx.length + l.length ≤ 39 →
    readVisionSerial rx vs l now = (rx ++ l, vs) := by
  induction l with
  | nil => intro rx vs now _ _; simp [readVisionSerial]
  | cons c cs ih =>
    intro rx vs now hnl hlen
    have hc : c ≠ '\n' := hnl c (List.mem_cons_self c cs)
    have hlen2 : rx.length + cs.length + 1 ≤ 39 := by
      simp only [List.length_cons] at hlen; omega
    have hlt : rx.length < 39 := by omega
    have step : processChar rx vs c now = (rx ++ [c], vs) := by
      simp [processChar, hc, hlt]
    have h1 : readVisionSerial rx vs (c :: cs) now =
        readVisionSerial (rx ++ [c]) vs cs now := by
      unfold readVisionSerial
      rw [List.foldl_cons]
      exact congrArg
        (fun p : List Char × VisionState =>
          List.foldl (fun p c => processChar p.1 p.2 c now) p cs) step
    rw [h1, ih (rx ++ [c]) vs now
      (fun x hx => hnl x (List.mem_cons_of_mem c hx))
      (by simp only [List.length_append, List.length_singleton]; omega)]
    simp

/-- Feeding a complete line that fits in the buffer, then its newline:
the buffer is reset and the vision state is updated iff the line parses. -/
theorem feed_line (line : List Char) (vs : VisionState) (now : ℕ)
    (hnl : ∀ c ∈ line, c ≠ '\n') (hlen : line.length ≤ 39) :
    readVisionSerial [] vs (line ++ ['\n']) now =
      ([], match parseLine line with
           | some (lk, v) =>
             { lastLk := clampf lk 0 1, lastValid := v != 0, lastVisionMs := now }
           | none => vs) := by
  rw [readVisionSerial_append]
  rw [feed_fill line [] vs now hnl (by simpa using hlen)]
  simp only [readVisionSerial, List.foldl_cons, List.foldl_nil, List.nil_append]
  show (processChar line vs '\n' now) = _
  unfold processChar
  simp only [if_pos rfl]
  cases hp : parseLine line with
  | none => simp
  | some p =>
    obtain ⟨lk, v⟩ := p
    simp

/-- An overlong line: 39 buffered bytes followed by one more non-newline byte
reset the buffer, so the bytes up to and including the overflow point are
dropped and ingestion restarts on the tail as if it were a fresh line. -/
theorem overflow_skip (vs : VisionState) (now : ℕ) (junk : List Char)
    (c : Char) (tail : List Char) (h39 : junk.length = 39)
    (hnl : ∀ x ∈ junk, x ≠ '\n') (hc : c ≠ '\n') :
    readVisionSerial [] vs (junk ++ c :: tail) now =
      readVisionSerial [] vs tail now := by
  rw [readVisionSerial_append]
  rw [feed_fill junk [] vs now hnl (by simp [h39])]
  have hstep : processChar junk vs c now = ([], vs) := by
    simp [processChar, hc, h39]
  simp only [List.nil_append]
  unfold readVisionSerial
  rw [List.foldl_cons]
  exact congrArg
    (fun p : List Char × VisionState =>
      List.foldl (fun p c => processChar p.1 p.2 c now) p tail) hstep

theorem bandGains_Ki (lk : ℚ) : (bandGains lk).Ki = 0 := by
  unfold bandGains
  split_ifs <;> rfl

theorem scheduler_Ki_zero (nowMs : ℕ) (vs : VisionState) :
    (updateScheduler nowMs vs).Ki = 0 := by
  unfold updateScheduler
  split_ifs
  · rfl
  · exact bandGains_Ki _

/-- When vision is trusted, the scheduler output is the pure three-band
decision table on `lastLk` (the clamp into `[BASE_MIN, BASE_MAX]` is the
identity on every band's base speed). -/
theorem updateScheduler_trusted (nowMs : ℕ) (vs : VisionState)
    (huse : useVisionOf nowMs vs = true) :
    updateScheduler nowMs vs = bandGains vs.lastLk := by
  unfold updateScheduler
  have hlk : effectiveLk nowMs vs = vs.lastLk := by simp [effectiveLk, huse]
  simp only [huse, Bool.true_eq_false, if_false, hlk]
  unfold bandGains
  split_ifs <;> norm_num [clampf, BASE_MIN, BASE_MAX]

/-- `tick` on a lost line (`computeIrError` reports no line): `u = 0`, both
PID fields zeroed, and the freshly scheduled base speed halved. -/
theorem tick_lost (s : CtrlState) (bytes : List Char) (nowMs : ℕ)
    (raw : ℕ → ℕ) (dt : ℚ) (h : computeIrError raw = none) :
    tick s bytes nowMs raw dt =
      { state :=
          { rxBuf := (readVisionSerial s.rxBuf s.vision bytes nowMs).1
            vision := (readVisionSerial s.rxBuf s.vision bytes nowMs).2
            gains :=
              { updateScheduler nowMs (readVisionSerial s.rxBuf s.vision bytes nowMs).2 with
                baseSpeed :=
                  (updateScheduler nowMs
                    (readVisionSerial s.rxBuf s.vision bytes nowMs).2).baseSpeed * (1/2) }
            integ := 0
            prevE := 0 }
        u := 0
        left := (mix ((updateScheduler nowMs
          (readVisionSerial s.rxBuf s.vision bytes nowMs).2).baseSpeed * (1/2)) 0).1
        right := (mix ((updateScheduler nowMs
          (readVisionSerial s.rxBuf s.vision bytes nowMs).2).baseSpeed * (1/2)) 0).2 } := by
  unfold tick
  rw [h]

/-- `tick` on a detected line with error `e`: the normal PID update. -/
theorem tick_present (s : CtrlState) (bytes : List Char) (nowMs : ℕ)
    (raw : ℕ → ℕ) (dt : ℚ) (e : ℚ) (h : computeIrError raw = some e) :
    tick s bytes nowMs raw dt =
      { state :=
          { rxBuf := (readVisionSerial s.rxBuf s.vision bytes nowMs).1
            vision := (readVisionSerial s.rxBuf s.vision bytes nowMs).2
            gains := updateScheduler nowMs (readVisionSerial s.rxBuf s.vision bytes nowMs).2
            integ := s.integ + e * dt
            prevE := e }
        u :=
          (updateScheduler nowMs (readVisionSerial s.rxBuf s.vision bytes nowMs).2).Kp * e +
          (updateScheduler nowMs (readVisionSerial s.rxBuf s.vision bytes nowMs).2).Ki *
            (s.integ + e * dt) +
          (updateScheduler nowMs (readVisionSerial s.rxBuf s.vision bytes nowMs).2).Kd *
            ((e - s.prevE) / dt)
        left := (mix (updateScheduler nowMs
            (readVisionSerial s.rxBuf s.vision bytes nowMs).2).baseSpeed
          ((updateScheduler nowMs (readVisionSerial s.rxBuf s.vision bytes nowMs).2).Kp * e +
           (updateScheduler nowMs (readVisionSerial s.rxBuf s.vision bytes nowMs).2).Ki *
             (s.integ + e * dt) +
           (updateScheduler nowMs (readVisionSerial s.rxBuf s.vision bytes nowMs).2).Kd *
             ((e - s.prevE) / dt))).1
        right := (mix (updateScheduler nowMs
            (readVisionSerial s.rxBuf s.vision bytes nowMs).2).baseSpeed
          ((updateScheduler nowMs (readVisionSerial s.rxBuf s.vision bytes nowMs).2).Kp * e +
           (updateScheduler nowMs (readVisionSerial s.rxBuf s.vision bytes nowMs).2).Ki *
             (s.integ + e * dt) +
           (updateScheduler nowMs (readVisionSerial s.rxBuf s.vision bytes nowMs).2).Kd *
             ((e - s.prevE) / dt))).2 } := by
  unfold tick
  rw [h]

theorem reachable_Ki_zero (s : CtrlState) (h : Reachable s) : s.gains.Ki = 0 := by
  induction h with
  | init => rfl
  | step s bytes nowMs raw dt _ _ =>
    cases hcase : computeIrError raw with
    | none => rw [tick_lost s bytes nowMs raw dt hcase]; exact scheduler_Ki_zero _ _
    | some e => rw [tick_present s bytes nowMs raw dt e hcase]; exact scheduler_Ki_zero _ _

theorem useVisionOf_invalid (nowMs : ℕ) (vs : VisionState)
    (h : vs.lastValid = false) : useVisionOf nowMs vs = false := by
  simp [useVisionOf, h]

theorem updateScheduler_untrusted (nowMs : ℕ) (vs : VisionState)
    (h : useVisionOf nowMs vs = false) :
    updateScheduler nowMs vs =
      { Kp := 70/100, Ki := 0, Kd := 10/100, baseSpeed := 30/100 } := by
  unfold updateScheduler
  rw [h, if_pos rfl]

theorem parse_L042 : parseLine ("L,0.42,1".data) = some (21/50, 1) := by
  simp +decide [parseLine, scanFloat, scanInt, scanSign, scanExp, takeDigits,
    natOfDigits, digVal, cIsSpace, pow10, zpow10]
  all_goals norm_num

theorem parse_L15 : parseLine ("L,1.5,0".data) = some (3/2, 0) := by
  simp +decide [parseLine, scanFloat, scanInt, scanSign, scanExp, takeDigits,
    natOfDigits, digVal, cIsSpace, pow10, zpow10]
  all_goals norm_num

theorem parse_L05 : parseLine ("L,0.5,1".data) = some (1/2, 1) := by
  simp +decide [parseLine, scanFloat, scanInt, scanSign, scanExp, takeDigits,
    natOfDigits, digVal, cIsSpace, pow10, zpow10]
  all_goals norm_num

theorem parse_L05_extra : parseLine ("L,0.5,1,extra".data) = some (1/2, 1) := by
  simp +decide [parseLine, scanFloat, scanInt, scanSign, scanExp, takeDigits,
    natOfDigits, digVal, cIsSpace, pow10, zpow10]
  all_goals norm_num

theorem parse_L05_junk : parseLine ("L,0.5,1junk".data) = some (1/2, 1) := by
  simp +decide [parseLine, scanFloat, scanInt, scanSign, scanExp, takeDigits,
    natOfDigits, digVal, cIsSpace, pow10, zpow10]
  all_goals norm_num

/-! ## Claim theorems -/

/-- C3: for every lookahead `lastLk ∈ [0,1]` under trusted vision, the
scheduled `baseSpeed` lies in `[BASE_MIN, BASE_MAX]`, and band selection uses
strict `<` at both thresholds: `lk < 0.35` gives the low band (baseSpeed
0.25, high Kp), `0.35 ≤ lk < 0.70` the mid band (baseSpeed 0.40), `lk ≥ 0.70`
the high band (baseSpeed 0.60, low Kp, high Kd); in particular `lk = 0.35`
falls in the mid band. -/
theorem scheduler_bands_and_clamp (nowMs : ℕ) (vs : VisionState)
    (hfresh : usub32 nowMs vs.lastVisionMs < 200) (hvalid : vs.lastValid = true)
    (h0 : 0 ≤ vs.lastLk) (h1 : vs.lastLk ≤ 1) :
    (BASE_MIN ≤ (updateScheduler nowMs vs).baseSpeed ∧
     (updateScheduler nowMs vs).baseSpeed ≤ BASE_MAX) ∧
    (vs.lastLk < 35/100 →
      (updateScheduler nowMs vs).baseSpeed = 25/100 ∧
      (updateScheduler nowMs vs).Kp = 85/100) ∧
    (35/100 ≤ vs.lastLk → vs.lastLk < 70/100 →
      (updateScheduler nowMs vs).baseSpeed = 40/100) ∧
    (70/100 ≤ vs.lastLk →
      (updateScheduler nowMs vs).baseSpeed = 60/100 ∧
      (updateScheduler nowMs vs).Kp = 45/100 ∧
      (updateScheduler nowMs vs).Kd = 16/100) ∧
    (vs.lastLk = 35/100 → (updateScheduler nowMs vs).baseSpeed = 40/100) := by
  have huse : useVisionOf nowMs vs = true := by
    simp [useVisionOf, hfresh, hvalid]
  rw [updateScheduler_trusted nowMs vs huse]
  unfold bandGains
  refine ⟨?_, ?_, ?_, ?_, ?_⟩
  · split_ifs <;> norm_num [BASE_MIN, BASE_MAX]
  · intro h; rw [if_pos h]; exact ⟨rfl, rfl⟩
  · intro ha hb; rw [if_neg (by linarith), if_pos hb]
  · intro h
    rw [if_neg (by linarith), if_neg (by linarith)]
    exact ⟨rfl, rfl, rfl⟩
  · intro h; rw [h]; norm_num

/-- Witness for `scheduler_bands_and_clamp` at `nowMs = 100`,
`vs = ⟨0.35, true, 0⟩` (the 0.35 band edge). -/
theorem scheduler_bands_and_clamp_witness :
    (usub32 100 (0 : ℕ) < 200 ∧ (0:ℚ) ≤ 35/100 ∧ (35/100:ℚ) ≤ 1) ∧
    ((BASE_MIN ≤ (updateScheduler 100 ⟨35/100, true, 0⟩).baseSpeed ∧
      (updateScheduler 100 ⟨35/100, true, 0⟩).baseSpeed ≤ BASE_MAX) ∧
     ((35/100 : ℚ) < 35/100 →
       (updateScheduler 100 ⟨35/100, true, 0⟩).baseSpeed = 25/100 ∧
       (updateScheduler 100 ⟨35/100, true, 0⟩).Kp = 85/100) ∧
     ((35/100 : ℚ) ≤ 35/100 → (35/100 : ℚ) < 70/100 →
       (updateScheduler 100 ⟨35/100, true, 0⟩).baseSpeed = 40/100) ∧
     ((70/100 : ℚ) ≤ 35/100 →
       (updateScheduler 100 ⟨35/100, true, 0⟩).baseSpeed = 60/100 ∧
       (updateScheduler 100 ⟨35/100, true, 0⟩).Kp = 45/100 ∧
       (updateScheduler 100 ⟨35/100, true, 0⟩).Kd = 16/100) ∧
     ((35/100 : ℚ) = 35/100 →
       (updateScheduler 100 ⟨35/100, true, 0⟩).baseSpeed = 40/100)) :=
  ⟨⟨by norm_num [usub32], by norm_num, by norm_num⟩,
    scheduler_bands_and_clamp 100 ⟨35/100, true, 0⟩ (by norm_num [usub32]) rfl
      (by norm_num) (by norm_num)⟩

/-- C4: vision is trusted exactly when the last sample is fresh and valid:
`useVision = (now - receivedAt < 200) && valid` (32-bit wrap subtraction), and
the effective lookahead is `lastLk` when trusted and the fixed fallback 0
otherwise; a sample stamped 201 ms ago is never trusted, one stamped 199 ms
ago with `valid = true` is trusted. -/
theorem mode_arbiter_trust (nowMs : ℕ) (vs : VisionState) :
    (useVisionOf nowMs vs =
      ((usub32 nowMs vs.lastVisionMs < 200) && vs.lastValid)) ∧
    (effectiveLk nowMs vs = if useVisionOf nowMs vs = true then vs.lastLk else 0) ∧
    (vs.lastVisionMs + 201 = nowMs → useVisionOf nowMs vs = false) ∧
    (vs.lastVisionMs + 199 = nowMs → vs.lastValid = true →
      useVisionOf nowMs vs = true) := by
  refine ⟨rfl, rfl, ?_, ?_⟩
  · intro h
    have h201 : usub32 nowMs vs.lastVisionMs = 201 := by unfold usub32; omega
    simp [useVisionOf, h201]
  · intro h hval
    have h199 : usub32 nowMs vs.lastVisionMs = 199 := by unfold usub32; omega
    simp [useVisionOf, h199, hval]

/-- Witness for `mode_arbiter_trust` at `nowMs = 1000`,
`vs = ⟨1/2, true, 801⟩` (a 199 ms old valid sample), with the inner
freshness hypotheses discharged on the 199 ms case. -/
theorem mode_arbiter_trust_witness :
    useVisionOf 1000 ⟨1/2, true, 801⟩ = true :=
  (mode_arbiter_trust 1000 ⟨1/2, true, 801⟩).2.2.2 (by norm_num) rfl

/-- C7: the command mixer computes `left = baseSpeed - u` and
`right = baseSpeed + u`, clamps each independently to `[-1, 1]` with no
rebalancing when only one side saturates: `baseSpeed = 0.60`, `u = 0.90`
yields `left = -0.30`, `right = 1.00`. -/
theorem mixer_independent_clamps (base u : ℚ) :
    (mix base u).1 = clampf (base - u) (-1) 1 ∧
    (mix base u).2 = clampf (base + u) (-1) 1 ∧
    (-1 ≤ (mix base u).1 ∧ (mix base u).1 ≤ 1) ∧
    (-1 ≤ (mix base u).2 ∧ (mix base u).2 ≤ 1) ∧
    mix (60/100) (90/100) = (-(30/100), 1) := by
  refine ⟨rfl, rfl, clampf_mem _ _ _ (by norm_num),
    clampf_mem _ _ _ (by norm_num), ?_⟩
  norm_num [mix, clampf, Prod.ext_iff]

/-- C8: the two PID state fields are reset together or not at all: every tick
either zeroes both `integ` and `prevE` (line lost) or applies the normal PID
update to both; no tick zeroes exactly one of them by a reset. -/
theorem pid_state_reset_atomic (s : CtrlState) (bytes : List Char) (nowMs : ℕ)
    (raw : ℕ → ℕ) (dt : ℚ) :
    (computeIrError raw = none ∧
     (tick s bytes nowMs raw dt).state.integ = 0 ∧
     (tick s bytes nowMs raw dt).state.prevE = 0) ∨
    (∃ e, computeIrError raw = some e ∧
      (tick s bytes nowMs raw dt).state.integ = s.integ + e * dt ∧
      (tick s bytes nowMs raw dt).state.prevE = e) := by
  cases hcase : computeIrError raw with
  | none =>
    left
    rw [tick_lost s bytes nowMs raw dt hcase]
    exact ⟨rfl, rfl, rfl⟩
  | some e =>
    right
    refine ⟨e, rfl, ?_, ?_⟩ <;>
      rw [tick_present s bytes nowMs raw dt e hcase]

/-- C5: a complete malformed line (wrong prefix or unparsable fields) is
dropped at its newline: the vision state is bit-identical before and after
ingestion, and the buffer is simply reset. -/
theorem malformed_line_leaves_vision_unchanged (vs : VisionState) (now : ℕ)
    (line : List Char) (hnl : ∀ c ∈ line, c ≠ '\n') (hlen : line.length ≤ 39)
    (hbad : parseLine line = none) :
    readVisionSerial [] vs (line ++ ['\n']) now = ([], vs) := by
  rw [feed_line line vs now hnl hlen, hbad]

/-- Witness for `malformed_line_leaves_vision_unchanged` on the wrong-prefix
line `X,1,1`. -/
theorem malformed_line_leaves_vision_unchanged_witness :
    ((∀ c ∈ ("X,1,1".data), c ≠ '\n') ∧ ("X,1,1".data).length ≤ 39 ∧
      parseLine ("X,1,1".data) = none) ∧
    readVisionSerial [] ⟨0, false, 0⟩ ("X,1,1".data ++ ['\n']) 5 =
      ([], ⟨0, false, 0⟩) :=
  ⟨⟨by decide, by decide, by decide⟩,
    malformed_line_leaves_vision_unchanged ⟨0, false, 0⟩ 5 ("X,1,1".data)
      (by decide) (by decide) (by decide)⟩

/-- C6: a successfully parsed line stores `lk` clamped to `[0,1]` (never
rejected for being out of range), `valid = (v != 0)` and the current
timestamp; concretely `L,0.42,1` stores `{0.42, true, now}` and `L,1.5,0`
stores `{1.0 (clamped), false, now}`. -/
theorem parsed_line_clamps_and_stamps (vs : VisionState) (now : ℕ)
    (line : List Char) (lk : ℚ) (v : ℤ)
    (hnl : ∀ c ∈ line, c ≠ '\n') (hlen : line.length ≤ 39)
    (hp : parseLine line = some (lk, v)) :
    readVisionSerial [] vs (line ++ ['\n']) now =
      ([], { lastLk := clampf lk 0 1, lastValid := v != 0, lastVisionMs := now }) ∧
    0 ≤ clampf lk 0 1 ∧ clampf lk 0 1 ≤ 1 ∧
    readVisionSerial [] vs ("L,0.42,1\n".data) now = ([], ⟨21/50, true, now⟩) ∧
    readVisionSerial [] vs ("L,1.5,0\n".data) now = ([], ⟨1, false, now⟩) := by
  obtain ⟨hm1, hm2⟩ := clampf_mem lk 0 1 (by norm_num)
  refine ⟨?_, hm1, hm2, ?_, ?_⟩
  · rw [feed_line line vs now hnl hlen, hp]
  · rw [show ("L,0.42,1\n".data) = "L,0.42,1".data ++ ['\n'] from rfl]
    rw [feed_line _ _ _ (by decide) (by decide), parse_L042]
    norm_num [clampf]
  · rw [show ("L,1.5,0\n".data) = "L,1.5,0".data ++ ['\n'] from rfl]
    rw [feed_line _ _ _ (by decide) (by decide), parse_L15]
    norm_num [clampf]

/-- Witness for `parsed_line_clamps_and_stamps` at the line `L,0.42,1`. -/
theorem parsed_line_clamps_and_stamps_witness :
    ((∀ c ∈ ("L,0.42,1".data), c ≠ '\n') ∧ ("L,0.42,1".data).length ≤ 39 ∧
      parseLine ("L,0.42,1".data) = some (21/50, 1)) ∧
    (readVisionSerial [] ⟨0, false, 0⟩ ("L,0.42,1".data ++ ['\n']) 5 =
      ([], { lastLk := clampf (21/50) 0 1, lastValid := (1:ℤ) != 0,
             lastVisionMs := 5 }) ∧
     0 ≤ clampf (21/50) 0 1 ∧ clampf (21/50) 0 1 ≤ 1 ∧
     readVisionSerial [] ⟨0, false, 0⟩ ("L,0.42,1\n".data) 5 =
       ([], ⟨21/50, true, 5⟩) ∧
     readVisionSerial [] ⟨0, false, 0⟩ ("L,1.5,0\n".data) 5 =
       ([], ⟨1, false, 5⟩)) :=
  ⟨⟨by decide, by decide, parse_L042⟩,
    parsed_line_clamps_and_stamps ⟨0, false, 0⟩ 5 ("L,0.42,1".data) (21/50) 1
      (by decide) (by decide) parse_L042⟩

/-- C10: the parser accepts newline-terminated lines whose `L,<float>,<int>`
prefix parses even when arbitrary characters follow the integer: both
`L,0.5,1,extra` and `L,0.5,1junk` update the vision state. -/
theorem trailing_junk_accepted (vs : VisionState) (now : ℕ) :
    parseLine ("L,0.5,1,extra".data) = some (1/2, 1) ∧
    parseLine ("L,0.5,1junk".data) = some (1/2, 1) ∧
    readVisionSerial [] vs ("L,0.5,1,extra\n".data) now = ([], ⟨1/2, true, now⟩) ∧
    readVisionSerial [] vs ("L,0.5,1junk\n".data) now = ([], ⟨1/2, true, now⟩) := by
  refine ⟨parse_L05_extra, parse_L05_junk, ?_, ?_⟩
  · rw [show ("L,0.5,1,extra\n".data) = "L,0.5,1,extra".data ++ ['\n'] from rfl]
    rw [feed_line _ _ _ (by decide) (by decide), parse_L05_extra]
    norm_num [clampf]
  · rw [show ("L,0.5,1junk\n".data) = "L,0.5,1junk".data ++ ['\n'] from rfl]
    rw [feed_line _ _ _ (by decide) (by decide), parse_L05_junk]
    norm_num [clampf]

/-- C2 counterexample: an overlong line (39 buffered bytes, an overflowing
40th byte, then the tail `L,0.5,1` and its newline) does update the vision
state when the terminating newline is consumed: the tail after the overflow
reset parses as a fresh line, refuting "the entire line is dropped". -/
theorem overflow_whole_line_dropped_cex :
    (readVisionSerial [] ⟨0, false, 0⟩
      ("xxxxxxxxxxxxxxxxxxxxxxxxxxxxxxxxxxxxxxx".data ++
        'x' :: "L,0.5,1\n".data) 777).2 = ⟨1/2, true, 777⟩ ∧
    (⟨1/2, true, 777⟩ : VisionState) ≠ ⟨0, false, 0⟩ := by
  constructor
  · rw [overflow_skip _ _ _ _ _ (by decide) (by decide) (by decide)]
    rw [show ("L,0.5,1\n".data) = "L,0.5,1".data ++ ['\n'] from rfl]
    rw [feed_line _ _ _ (by decide) (by decide), parse_L05]
    norm_num [clampf]
  · simp

/-- C2 amended: a buffer overflow before a newline silently resets the
buffer, dropping the bytes up to and including the overflowing byte — but
ingestion then restarts on the remaining tail of the same line as if it were
a fresh line, so the line is not dropped as a whole: its tail after the reset
point is still parsed at the terminating newline (and, per the
counterexample, can update the vision state when it forms a valid message). -/
theorem overflow_drops_prefix_tail_reparsed (vs : VisionState) (now : ℕ)
    (junk : List Char) (c : Char) (tail : List Char) (h39 : junk.length = 39)
    (hnl : ∀ x ∈ junk, x ≠ '\n') (hc : c ≠ '\n') :
    readVisionSerial [] vs (junk ++ c :: tail) now =
      readVisionSerial [] vs tail now :=
  overflow_skip vs now junk c tail h39 hnl hc

/-- Witness for `overflow_drops_prefix_tail_reparsed`: 39 `x` bytes, an
overflowing `y`, then the tail `L,1,1` and newline. -/
theorem overflow_drops_prefix_tail_reparsed_witness :
    readVisionSerial [] ⟨0, false, 0⟩
      ("xxxxxxxxxxxxxxxxxxxxxxxxxxxxxxxxxxxxxxx".data ++
        'y' :: "L,1,1\n".data) 5 =
      readVisionSerial [] ⟨0, false, 0⟩ ("L,1,1\n".data) 5 :=
  overflow_drops_prefix_tail_reparsed ⟨0, false, 0⟩ 5
    ("xxxxxxxxxxxxxxxxxxxxxxxxxxxxxxxxxxxxxxx".data) 'y' ("L,1,1\n".data)
    (by decide) (by decide) (by decide)

/-- C1 counterexample: two consecutive lost ticks from the initial state
(all-zero sensor readings, stale/invalid vision so the scheduler assigns its
safe-mode base 0.30 each tick). After each lost tick the commanded base is
0.15 = 0.30/2; after two lost ticks it is still 0.15, not the pre-loss base
times (1/2)^2 — the halving does not compound because `updateScheduler`
rewrites `baseSpeed` every tick before the halving. -/
theorem lineLost_halving_compounds_cex :
    computeIrError (fun _ => 0) = none ∧
    (tick initState [] 1000 (fun _ => 0) (1/200)).state.gains.baseSpeed = 3/20 ∧
    (tick (tick initState [] 1000 (fun _ => 0) (1/200)).state [] 1005
      (fun _ => 0) (1/200)).state.gains.baseSpeed = 3/20 ∧
    (tick (tick initState [] 1000 (fun _ => 0) (1/200)).state [] 1005
      (fun _ => 0) (1/200)).state.gains.baseSpeed ≠
      initState.gains.baseSpeed * ((1/2) * (1/2)) ∧
    (tick (tick initState [] 1000 (fun _ => 0) (1/200)).state [] 1005
      (fun _ => 0) (1/200)).state.gains.baseSpeed ≠
      (30/100 : ℚ) * ((1/2) * (1/2)) := by
  have hir : computeIrError (fun _ => 0) = none := by norm_num [computeIrError]
  have hsch1 : updateScheduler 1000 initState.vision =
      { Kp := 70/100, Ki := 0, Kd := 10/100, baseSpeed := 30/100 } :=
    updateScheduler_untrusted _ _ (useVisionOf_invalid _ _ rfl)
  have hb1 : (tick initState [] 1000 (fun _ => 0) (1/200)).state.gains.baseSpeed =
      30/100 * (1/2) := by
    rw [tick_lost initState [] 1000 (fun _ => 0) (1/200) hir]
    dsimp only
    rw [readVisionSerial_nil]
    rw [show ((initState.rxBuf, initState.vision).2) = initState.vision from rfl,
      hsch1]
  have hrx1 : (tick initState [] 1000 (fun _ => 0) (1/200)).state.rxBuf = [] := by
    rw [tick_lost initState [] 1000 (fun _ => 0) (1/200) hir]
    rfl
  have hvs1 : (tick initState [] 1000 (fun _ => 0) (1/200)).state.vision =
      initState.vision := by
    rw [tick_lost initState [] 1000 (fun _ => 0) (1/200) hir]
    rfl
  have hsch2 : updateScheduler 1005 initState.vision =
      { Kp := 70/100, Ki := 0, Kd := 10/100, baseSpeed := 30/100 } :=
    updateScheduler_untrusted _ _ (useVisionOf_invalid _ _ rfl)
  have hb2 : (tick (tick initState [] 1000 (fun _ => 0) (1/200)).state [] 1005
      (fun _ => 0) (1/200)).state.gains.baseSpeed = 30/100 * (1/2) := by
    rw [tick_lost _ [] 1005 (fun _ => 0) (1/200) hir]
    dsimp only
    rw [hrx1, hvs1, readVisionSerial_nil]
    rw [show ((([] : List Char), initState.vision).2) = initState.vision from rfl,
      hsch2]
  refine ⟨hir, by rw [hb1]; norm_num, by rw [hb2]; norm_num, ?_, ?_⟩
  · rw [hb2]
    show (30/100 : ℚ) * (1/2) ≠ (35/100 : ℚ) * ((1/2) * (1/2))
    norm_num
  · rw [hb2]
    norm_num

/-- C1 amended: when the line sensor reports line-lost (in particular on
all-zero readings, whose channel sum 0 is below the 0.01 threshold), the tick
outputs correction `u = 0`, zeroes both PID fields, and commands a base speed
equal to half of the base speed the scheduler freshly assigned on that same
tick — the right-hand side does not depend on the previous base speed, so the
halving is re-derived from the scheduler's value each tick and does not
compound across consecutive lost ticks. -/
theorem lineLost_halves_scheduled_base (s : CtrlState) (bytes : List Char)
    (nowMs : ℕ) (raw : ℕ → ℕ) (dt : ℚ)
    (hlost : computeIrError raw = none) :
    (tick s bytes nowMs raw dt).u = 0 ∧
    (tick s bytes nowMs raw dt).state.integ = 0 ∧
    (tick s bytes nowMs raw dt).state.prevE = 0 ∧
    (tick s bytes nowMs raw dt).state.gains.baseSpeed =
      (updateScheduler nowMs
        (readVisionSerial s.rxBuf s.vision bytes nowMs).2).baseSpeed * (1/2) ∧
    (tick s bytes nowMs raw dt).left =
      clampf ((tick s bytes nowMs raw dt).state.gains.baseSpeed - 0) (-1) 1 ∧
    (tick s bytes nowMs raw dt).right =
      clampf ((tick s bytes nowMs raw dt).state.gains.baseSpeed + 0) (-1) 1 ∧
    computeIrError (fun _ => 0) = none := by
  rw [tick_lost s bytes nowMs raw dt hlost]
  exact ⟨rfl, rfl, rfl, rfl, rfl, rfl, by norm_num [computeIrError]⟩

/-- Witness for `lineLost_halves_scheduled_base` at the initial state with
all-zero sensor readings. -/
theorem lineLost_halves_scheduled_base_witness :
    computeIrError (fun _ => 0) = none ∧
    ((tick initState [] 0 (fun _ => 0) (1/200)).u = 0 ∧
     (tick initState [] 0 (fun _ => 0) (1/200)).state.integ = 0 ∧
     (tick initState [] 0 (fun _ => 0) (1/200)).state.prevE = 0 ∧
     (tick initState [] 0 (fun _ => 0) (1/200)).state.gains.baseSpeed =
       (updateScheduler 0
         (readVisionSerial initState.rxBuf initState.vision [] 0).2).baseSpeed
         * (1/2) ∧
     (tick initState [] 0 (fun _ => 0) (1/200)).left =
       clampf ((tick initState [] 0 (fun _ => 0) (1/200)).state.gains.baseSpeed - 0)
         (-1) 1 ∧
     (tick initState [] 0 (fun _ => 0) (1/200)).right =
       clampf ((tick initState [] 0 (fun _ => 0) (1/200)).state.gains.baseSpeed + 0)
         (-1) 1 ∧
     computeIrError (fun _ => 0) = none) :=
  ⟨by norm_num [computeIrError],
    lineLost_halves_scheduled_base initState [] 0 (fun _ => 0) (1/200)
      (by norm_num [computeIrError])⟩

/-- C9: every gain profile the scheduler can produce sets `Ki = 0`, the
initial `Ki` is 0, every reachable state has `Ki = 0`, and consequently on
every line-present tick the integral term contributes nothing: the correction
is exactly `Kp * e + Kd * derivative`. -/
theorem integral_contribution_zero (s : CtrlState) (bytes : List Char)
    (nowMs : ℕ) (raw : ℕ → ℕ) (dt : ℚ) (e : ℚ) (hs : Reachable s)
    (he : computeIrError raw = some e) :
    s.gains.Ki = 0 ∧
    initState.gains.Ki = 0 ∧
    (updateScheduler nowMs (readVisionSerial s.rxBuf s.vision bytes nowMs).2).Ki
      = 0 ∧
    (tick s bytes nowMs raw dt).u =
      (updateScheduler nowMs
        (readVisionSerial s.rxBuf s.vision bytes nowMs).2).Kp * e +
      (updateScheduler nowMs
        (readVisionSerial s.rxBuf s.vision bytes nowMs).2).Kd *
        ((e - s.prevE) / dt) := by
  refine ⟨reachable_Ki_zero s hs, rfl, scheduler_Ki_zero _ _, ?_⟩
  rw [tick_present s bytes nowMs raw dt e he]
  dsimp only
  rw [scheduler_Ki_zero nowMs (readVisionSerial s.rxBuf s.vision bytes nowMs).2]
  ring

/-- Witness for `integral_contribution_zero` at the initial state, with fully
saturated sensor readings (a centered line, error 0). -/
theorem integral_contribution_zero_witness :
    computeIrError (fun _ => 1023) = some 0 ∧
    (initState.gains.Ki = 0 ∧
     initState.gains.Ki = 0 ∧
     (updateScheduler 0
       (readVisionSerial initState.rxBuf initState.vision [] 0).2).Ki = 0 ∧
     (tick initState [] 0 (fun _ => 1023) (1/200)).u =
       (updateScheduler 0
         (readVisionSerial initState.rxBuf initState.vision [] 0).2).Kp * 0 +
       (updateScheduler 0
         (readVisionSerial initState.rxBuf initState.vision [] 0).2).Kd *
         ((0 - initState.prevE) / (1/200))) :=
  ⟨by norm_num [computeIrError],
    integral_contribution_zero initState [] 0 (fun _ => 1023) (1/200) 0
      Reachable.init (by norm_num [computeIrError])⟩

end Firmware
